import Mathlib

/-!
Verification of the folian-parser EPUB restructuring pipeline.

Strings are embedded as lists of characters (`Str`).  Go's byte-oriented
`len`/slicing coincides with character counts on the ASCII inputs used
throughout; thresholds are stated in the same unit the spec uses
("characters").  Go library functions used by the source
(`strings.TrimSpace`, `strings.ToLower`, `strings.HasPrefix`,
`strings.Contains`, `strings.Count`, `strings.SplitN`,
`html.UnescapeString`, `html.EscapeString`, `io.CopyN`) are given
executable models below, each faithful to the documented behaviour on the
character ranges exercised here.
-/

abbrev Str := List Char

/-- Convert a Lean string literal to the character-list embedding. -/
def str (s : String) : Str := s.data

/-- ASCII apostrophe, kept as a named constant for use inside embedded
template text. -/
def apoChar : Char := Char.ofNat 39

/-- Whitespace as recognised by Go's `unicode.IsSpace` (restricted to the
Latin-1 range, which covers every string in this development):
space, TAB, LF, VT, FF, CR, NEL (U+0085) and NBSP (U+00A0). -/
def isGoSpace (c : Char) : Bool :=
  c = ' ' || c = Char.ofNat 9 || c = Char.ofNat 10 || c = Char.ofNat 11 ||
  c = Char.ofNat 12 || c = Char.ofNat 13 || c = Char.ofNat 133 || c = Char.ofNat 160

/-- Model of Go `strings.TrimSpace`: drop whitespace from both ends. -/
def trimSpace (l : Str) : Str :=
  ((l.dropWhile isGoSpace).reverse.dropWhile isGoSpace).reverse

/-- Model of Go `strings.ToLower`, restricted to the ASCII case mapping
(sufficient for every string appearing in this development; non-ASCII
letters are left unchanged). -/
def toLowerStr (l : Str) : Str := l.map Char.toLower

/-- Model of Go `strings.HasPrefix s pat`. -/
def startsWith (s pat : Str) : Bool :=
  match pat, s with
  | [], _ => true
  | _ :: _, [] => false
  | p :: ps, c :: cs => c = p && startsWith cs ps

/-- Model of Go `strings.HasSuffix s pat`. -/
def endsWith (s pat : Str) : Bool := startsWith s.reverse pat.reverse

/-- Model of Go `strings.Contains s pat` (for the non-empty patterns used
in the source). -/
def containsSub (s pat : Str) : Bool :=
  match s with
  | [] => startsWith [] pat
  | c :: cs => startsWith (c :: cs) pat || containsSub cs pat

/-- Worker for `countSub`, structurally recursive on a fuel argument so
that it evaluates inside the kernel; the fuel is always the length of the
scanned string, which bounds the number of steps. -/
def countSubAux : Nat → Str → Str → Nat
  | 0, _, _ => 0
  | _ + 1, [], _ => 0
  | fuel + 1, c :: cs, pat =>
    if startsWith (c :: cs) pat && !pat.isEmpty then
      1 + countSubAux fuel (cs.drop (pat.length - 1)) pat
    else countSubAux fuel cs pat

/-- Model of Go `strings.Count s pat` for non-empty `pat`: number of
non-overlapping occurrences, scanning left to right and advancing past
each match. -/
def countSub (s pat : Str) : Nat := countSubAux s.length s pat

/-- Model of Go `strings.SplitN s " " 2`: `some (before, after)` when a
space occurs (split at the first one), `none` otherwise. -/
def splitOnceAtSpace (s : Str) : Option (Str × Str) :=
  match s with
  | [] => none
  | c :: cs =>
    if c = ' ' then some ([], cs)
    else
      match splitOnceAtSpace cs with
      | none => none
      | some (b, a) => some (c :: b, a)

/-- Go regexp `^\d+$`: one or more ASCII digits and nothing else. -/
def isAllDigits (s : Str) : Bool := !s.isEmpty && s.all Char.isDigit

/-- Decimal rendering of a natural number (Go `%d`). -/
def natToStr (n : Nat) : Str := Nat.toDigits 10 n

/-- Go `%03d`: pad the decimal rendering with leading zeros to width 3. -/
def pad3 (s : Str) : Str := List.replicate (3 - s.length) '0' ++ s

/-- Named-entity table used by the `html.UnescapeString` model: a
representative subset of Go's ~2100-entry table (the full table is not
reproduced; entities outside it are left intact, exactly as Go treats
unknown entities). -/
def entityTable : List (Str × Char) :=
  [(str "amp;", '&'), (str "lt;", '<'), (str "gt;", '>'),
   (str "quot;", '"'), (str "apos;", apoChar), (str "nbsp;", Char.ofNat 160)]

/-- Find the first table entry naming a prefix of `l`; return the decoded
character and the number of characters consumed. -/
def entityLookup : List (Str × Char) → Str → Option (Char × Nat)
  | [], _ => none
  | (pat, c) :: rest, l =>
    if startsWith l pat then some (c, pat.length) else entityLookup rest l

/-- Worker for `htmlUnescape`, structurally recursive on a fuel argument
(always the length of the input, which bounds the number of steps). -/
def htmlUnescapeAux : Nat → Str → Str
  | 0, l => l
  | _ + 1, [] => []
  | fuel + 1, c :: rest =>
    if c = '&' then
      match entityLookup entityTable rest with
      | some (ch, k) => ch :: htmlUnescapeAux fuel (rest.drop k)
      | none => c :: htmlUnescapeAux fuel rest
    else c :: htmlUnescapeAux fuel rest

/-- Model of Go `html.UnescapeString`: scan for `&`, replace a recognised
entity reference by its character, leave everything else (including
unrecognised entities) unchanged. -/
def htmlUnescape (l : Str) : Str := htmlUnescapeAux l.length l

/-- Model of Go `html.EscapeString`: escapes the five special characters. -/
def htmlEscape (l : Str) : Str :=
  l.flatMap fun c =>
    if c = '&' then str "&amp;"
    else if c = apoChar then str "&#39;"
    else if c = '<' then str "&lt;"
    else if c = '>' then str "&gt;"
    else if c = '"' then str "&#34;"
    else [c]

example : trimSpace (str "  ab c  ") = str "ab c" := by decide
example : containsSub (str "hello toc here") (str "toc") = true := by decide
example : countSub (str "<a x><a y>") (str "<a ") = 2 := by decide
example : splitOnceAtSpace (str "part two three") = some (str "part", str "two three") := by decide
example : htmlUnescape (str "a &amp; b") = str "a & b" := by decide
example : pad3 (natToStr 7) = str "007" := by decide

/-! ## Data model (internal/parser/parser.go) -/

/-- `parser.Metadata`: optional scalar strings (empty = absent). -/
structure Metadata where
  Title : Str := []
  Creator : Str := []
  Language : Str := []
  Identifier : Str := []
  Publisher : Str := []
  Description : Str := []
  Date : Str := []
deriving Repr, DecidableEq

/-- `parser.ManifestItem`. -/
structure ManifestItem where
  ID : Str := []
  Href : Str := []
  MediaType : Str := []
  Properties : Str := []
deriving Repr, DecidableEq

/-- `parser.SpineItem`. -/
structure SpineItem where
  IDRef : Str := []
  Linear : Str := []
  Properties : Str := []
deriving Repr, DecidableEq

/-- Guide entry of the monolithic parser (src/unnamed/part_008): type,
title and href of a legacy navigation hint. -/
structure GuideItem where
  Gtype : Str := []
  GTitle : Str := []
  GHref : Str := []
deriving Repr, DecidableEq

/-- `parser.Chapter`. -/
structure Chapter where
  ID : Str := []
  Title : Str := []
  Content : Str := []
  Order : Nat := 0
deriving Repr, DecidableEq

/-- `parser.Book`.  The Go `Manifest` field is a `map[string]ManifestItem`
keyed by item ID; both parsers insert each item under its own `ID` field,
so the map is embedded as a list of items carrying their keys, listed in
one (unspecified, cf. the Go memory model for maps) iteration order. -/
structure Book where
  Path : Str := []
  Metadata : Metadata := {}
  Spine : List SpineItem := []
  Manifest : List ManifestItem := []
  Guide : List GuideItem := []
  CoverImage : Str := []
  Stylesheets : List Str := []
  Fonts : List Str := []
  Images : List Str := []
  Chapters : List Chapter := []
deriving Repr, DecidableEq

/-- Go map indexing `book.Manifest[key]`: the item stored under `key`, or
the zero-value `ManifestItem` when the key is absent. -/
def manifestGet (m : List ManifestItem) (key : Str) : ManifestItem :=
  ((m.find? fun it => it.ID = key).getD {})

/-! ## Chapter consolidation engine (internal/restructure/restructurer.go) -/

/-- The three leading markers stripped by `cleanChapterTitle`
(`prefixesToRemove` in the source). -/
def stripMarkers : List Str := [str "part", str "phần", str "section"]

/-- The marker-stripping loop of `cleanChapterTitle`.  Faithful to the
source: `titleLower` is computed once, before the loop, and never
refreshed, so it is tested against the original lowercased title even
after a strip; the running title is split at its first space and the
remainder trimmed. -/
def stripLoop : List Str → Str → Str → Str
  | [], _, title => title
  | p :: ps, titleLower, title =>
    let title1 :=
      if startsWith titleLower p then
        match splitOnceAtSpace title with
        | some (_, after) => trimSpace after
        | none => title
      else title
    stripLoop ps titleLower title1

/-- `cleanChapterTitle` (restructurer.go:909): trim, decode HTML
entities, strip one leading marker, then rewrite purely-numeric, empty or
"untitled" titles as a numbered Vietnamese chapter heading. -/
def cleanChapterTitle (title0 : Str) (chapterNum : Nat) : Str :=
  let title1 := htmlUnescape (trimSpace title0)
  let titleLower := toLowerStr title1
  let title2 := stripLoop stripMarkers titleLower title1
  if isAllDigits title2 then str "Chương " ++ title2
  else if title2 = [] || toLowerStr title2 = str "untitled" then
    str "Chương " ++ natToStr chapterNum
  else title2

/-- `isBetterTitle` (restructurer.go:865). -/
def isBetterTitle (newTitle currentTitle : Str) : Bool :=
  let newLower := toLowerStr (trimSpace newTitle)
  let currentLower := toLowerStr (trimSpace currentTitle)
  if containsSub currentLower (str "chapter") && !containsSub newLower (str "chapter") then true
  else if containsSub currentLower (str "part") && !containsSub newLower (str "part") then true
  else if currentTitle.length < newTitle.length && 10 < newTitle.length then true
  else false

/-- The navigation-marker list of `isNavigationChapter`. -/
def navIndicators : List Str :=
  [str "table of contents", str "mục lục", str "contents", str "toc", str "navigation"]

/-- `isNavigationChapter` (restructurer.go:886).  The link-density test in
the source is `float64(linkCount)/float64(contentLength)*1000 > 10` on
`float64`; it is embedded as the exact rational comparison
`100*linkCount > contentLength`, which agrees with the float computation
except within a rounding error of the threshold itself. -/
def isNavigationChapter (chapter : Chapter) : Bool :=
  let title := toLowerStr chapter.Title
  let content := toLowerStr chapter.Content
  if navIndicators.any (fun ind => containsSub title ind || containsSub content ind) then true
  else
    let linkCount := countSub content (str "<a ")
    let contentLength := (trimSpace content).length
    0 < contentLength && 5 < linkCount && contentLength < 100 * linkCount

/-- `cleanupChapterTitles` loop body, carrying the running index
(`cleaned[i].Title = cleanChapterTitle(chapter.Title, i+1)`). -/
def cleanupFrom : Nat → List Chapter → List Chapter
  | _, [] => []
  | i, c :: cs => { c with Title := cleanChapterTitle c.Title (i + 1) } :: cleanupFrom (i + 1) cs

/-- `cleanupChapterTitles` (restructurer.go:855): title cleanup without
consolidation. -/
def cleanupChapterTitles (chapters : List Chapter) : List Chapter :=
  cleanupFrom 0 chapters

/-- `minChapterLength` (restructurer.go:802). -/
def minChapterLength : Nat := 800

/-- `maxChapterLength` (restructurer.go:803). -/
def maxChapterLength : Nat := 15000

/-- Loop state of `consolidateChapters`: the sealed chapters and the open
accumulator (`currentChapter`, nil ↔ `none`). -/
structure ConsState where
  consolidated : List Chapter := []
  current : Option Chapter := none
deriving Repr, DecidableEq

/-- One iteration of the `consolidateChapters` loop (restructurer.go:805).
Branches, in source order: drop navigation chapters; merge a short
document into an open accumulator when the combined length stays under
`maxChapterLength` (replacing the title if the incoming one is better);
otherwise seal the open accumulator (if any) and open a new one with a
cleaned title numbered `len(consolidated)+1` after sealing. -/
def consolidateStep (st : ConsState) (chapter : Chapter) : ConsState :=
  let contentLength := (trimSpace chapter.Content).length
  if isNavigationChapter chapter then st
  else
    match st.current with
    | some cur =>
      if contentLength < minChapterLength then
        if cur.Content.length + contentLength < maxChapterLength then
          let merged : Chapter := { cur with
            Content := cur.Content ++ str "\n\n" ++ chapter.Content
            Title := if isBetterTitle chapter.Title cur.Title then chapter.Title else cur.Title }
          { st with current := some merged }
        else
          let cons1 := st.consolidated ++ [cur]
          { consolidated := cons1
            current := some { chapter with Title := cleanChapterTitle chapter.Title (cons1.length + 1) } }
      else
        let cons1 := st.consolidated ++ [cur]
        { consolidated := cons1
          current := some { chapter with Title := cleanChapterTitle chapter.Title (cons1.length + 1) } }
    | none =>
      { consolidated := st.consolidated
        current := some { chapter with Title := cleanChapterTitle chapter.Title (st.consolidated.length + 1) } }

/-- `consolidateChapters` (restructurer.go:794): direct mode (≤ 20 input
documents) only cleans titles; consolidation mode folds
`consolidateStep` over the documents and seals any open accumulator at
the end. -/
def consolidateChapters (chapters : List Chapter) : List Chapter :=
  if chapters.length ≤ 20 then cleanupChapterTitles chapters
  else
    let fin := chapters.foldl consolidateStep {}
    match fin.current with
    | some cur => fin.consolidated ++ [cur]
    | none => fin.consolidated

/-- Instrumented loop state for `consolidateChapters`: alongside the
source's state it records, per open accumulator, the trimmed text lengths
of the documents merged into it (`curTrims`), and for every merge
decision taken, the summed trimmed length of the accumulator's documents
plus the incoming document's trimmed length (`merges`). -/
structure ConsTrace where
  consolidated : List Chapter := []
  current : Option Chapter := none
  curTrims : List Nat := []
  merges : List Nat := []
deriving Repr, DecidableEq

/-- Instrumented `consolidateStep`: identical branch structure, with the
ghost fields updated alongside. -/
def consolidateTraceStep (st : ConsTrace) (chapter : Chapter) : ConsTrace :=
  let contentLength := (trimSpace chapter.Content).length
  if isNavigationChapter chapter then st
  else
    match st.current with
    | some cur =>
      if contentLength < minChapterLength then
        if cur.Content.length + contentLength < maxChapterLength then
          let merged : Chapter := { cur with
            Content := cur.Content ++ str "\n\n" ++ chapter.Content
            Title := if isBetterTitle chapter.Title cur.Title then chapter.Title else cur.Title }
          { st with
            current := some merged
            curTrims := st.curTrims ++ [contentLength]
            merges := st.merges ++ [st.curTrims.sum + contentLength] }
        else
          let cons1 := st.consolidated ++ [cur]
          { consolidated := cons1
            current := some { chapter with Title := cleanChapterTitle chapter.Title (cons1.length + 1) }
            curTrims := [contentLength]
            merges := st.merges }
      else
        let cons1 := st.consolidated ++ [cur]
        { consolidated := cons1
          current := some { chapter with Title := cleanChapterTitle chapter.Title (cons1.length + 1) }
          curTrims := [contentLength]
          merges := st.merges }
    | none =>
      { consolidated := st.consolidated
        current := some { chapter with Title := cleanChapterTitle chapter.Title (st.consolidated.length + 1) }
        curTrims := [contentLength]
        merges := st.merges }

/-- All merge-decision records produced while consolidating `chapters`. -/
def consolidateMerges (chapters : List Chapter) : List Nat :=
  (chapters.foldl consolidateTraceStep {}).merges

/-- Subtitle derivation of the jacket page (restructurer.go:334): default
string when there is no description, the description itself when its
length is at most 60, else its first 57 characters plus an ellipsis. -/
def deriveSubtitle (description : Str) : Str :=
  if description = [] then str "A Folian Book"
  else if 60 < description.length then description.take 57 ++ str "..."
  else description

/-! ## Package reader (internal/epub/processor.go) -/

/-- Error value of an `io` copy: only `io.EOF` can arise from the copy
model below. -/
inductive CopyErr where
  | eof
deriving Repr, DecidableEq

/-- Model of Go `io.CopyN dst src n` on the source bytes (element type
abstracted): exactly `min n (len src)` elements are written to `dst`, and
the returned error is `io.EOF` when fewer than `n` were available, `nil`
(`none`) when the full `n` were copied. -/
def copyN {α : Type} (src : List α) (n : Nat) : List α × Option CopyErr :=
  (src.take n, if src.length < n then some CopyErr.eof else none)

/-- `maxSize` (processor.go:106): the 100 MB per-file extraction cap. -/
def maxExtractSize : Nat := 100 * 1024 * 1024

/-- Outcome of extracting one archive entry. -/
inductive ExtractResult (α : Type) where
  | failed (msg : Str)
  | extracted (file : List α)
deriving Repr, DecidableEq

/-- The per-entry extraction step of `extractEPUB` (processor.go:105-112):
`io.CopyN(dstFile, srcFile, maxSize)` followed by
`if err != nil && err != io.EOF { return error }`; the bytes copied
before the check are already in the destination file. -/
def extractEntry {α : Type} (data : List α) : ExtractResult α :=
  match copyN data maxExtractSize with
  | (written, err) =>
    if err ≠ none ∧ err ≠ some CopyErr.eof then
      ExtractResult.failed (str "failed to extract file or file too large")
    else ExtractResult.extracted written

/-! ## Cover-image resolution (internal/parser/parser.go and
src/unnamed/part_008) -/

/-- The cover detection inside `parseOPF` (parser.go:199-202, identical
in the monolithic parser): while inserting manifest items in document
order, any item whose `Properties` equal `"cover-image"` overwrites
`book.CoverImage`; there is no break, so the last flagged item wins.
`[]` is the zero value the field starts from. -/
def parseOPFCoverScan (items : List ManifestItem) : Str :=
  items.foldl (fun cover it => if it.Properties = str "cover-image" then it.Href else cover) []

/-- The guide tier of `findCoverImage` (part_008): the first guide entry
of type `"cover"` for which some manifest item's href is a suffix of the
guide href; the inner scan follows the manifest iteration order. -/
def guideCoverScan (guide : List GuideItem) (m : List ManifestItem) : Option Str :=
  guide.findSome? fun g =>
    if g.Gtype = str "cover" then
      (m.find? fun it => endsWith g.GHref it.Href).map fun it => it.Href
    else none

/-- `findCoverImage` (part_008:931-965): three tiers with early return —
a manifest item whose `Properties` contain `"cover-image"`; else a guide
entry of type `"cover"` with a suffix-matching manifest item; else a
manifest item whose ID contains `"cover"` and whose media type contains
`"image"`.  The manifest list stands for one iteration order of the Go
map (the language leaves that order unspecified). -/
def findCoverImage (m : List ManifestItem) (guide : List GuideItem) : Option Str :=
  match m.find? fun it => containsSub it.Properties (str "cover-image") with
  | some it => some it.Href
  | none =>
    match guideCoverScan guide m with
    | some h => some h
    | none =>
      (m.find? fun it =>
          (it.ID = str "cover" || containsSub it.ID (str "cover")) &&
          containsSub it.MediaType (str "image")).map fun it => it.Href

/-! ## Structure builder (internal/restructure/restructurer.go) -/

/-- Model of `filepath.Join` for the two-component uses here (the
path-cleaning normalisation is omitted: only definedness matters to the
claims below, never the path value). -/
def joinPath (a b : Str) : Str :=
  if a = [] then b else if b = [] then a else a ++ ['/'] ++ b

/-- Model of `filepath.Dir`: everything before the last separator
(`"."` when there is none, `"/"` at the root). -/
def dirPath (p : Str) : Str :=
  match p.reverse.dropWhile (fun c => !(c = '/')) with
  | [] => str "."
  | _ :: rest => if rest = [] then str "/" else rest.reverse

/-- The first action of `processContent` (restructurer.go:94):
`basePath := Dir(Join(book.Path, book.Manifest[book.Spine[0].IDRef].Href))`.
Indexing `book.Spine[0]` panics with an index-out-of-range runtime error
when the spine is empty — the panic is modelled as `none`; no error value
is returned on that path. -/
def processContentBase (book : Book) : Option Str :=
  match book.Spine with
  | [] => none
  | s0 :: _ => some (dirPath (joinPath book.Path (manifestGet book.Manifest s0.IDRef).Href))

/-- `fmt.Sprintf("chapter_%03d.xhtml", n)`. -/
def chapterFileName (n : Nat) : Str :=
  str "chapter_" ++ pad3 (natToStr n) ++ str ".xhtml"

/-- Fixed template text before the first `%s` of the chapter document
template (restructurer.go:997 and 1035; both functions use the same
text). -/
def xhtmlChunk1 : Str :=
  str "<?xml version=" ++ [apoChar] ++ str "1.0" ++ [apoChar] ++ str " encoding=" ++
  [apoChar] ++ str "utf-8" ++ [apoChar] ++
  str "?>\n<html xmlns=\"http://www.w3.org/1999/xhtml\">\n\n<head>\n  <title>"

/-- Template text between the `<title>` and `<h1>` insertions. -/
def xhtmlChunk2 : Str :=
  str "</title>\n  <link href=\"../styles/stylesheet.css\" rel=\"stylesheet\" type=\"text/css\"/>\n</head>\n\n<body>\n  <h1>"

/-- Template text between the `<h1>` insertion and the body insertion. -/
def xhtmlChunk3 : Str := str "</h1>\n\n"

/-- Template text after the body insertion. -/
def xhtmlChunk4 : Str := str "\n\n</body>\n\n</html>"

/-- The chapter document produced by both `createCleanChapterContent` and
`createBasicChapterContent`: title HTML-escaped into `<title>` and
`<h1>`, body inserted between the fixed chunks. -/
def chapterXhtml (title body : Str) : Str :=
  xhtmlChunk1 ++ htmlEscape title ++ xhtmlChunk2 ++ htmlEscape title ++
  xhtmlChunk3 ++ body ++ xhtmlChunk4

/-- `createCleanChapterContent` (restructurer.go:938).  The goquery DOM
sanitisation (a full HTML5 parser) is abstracted as `sanitizeBody`:
`none` models a parse error (the caller then falls back), `some b` the
extracted sanitised body markup.  Claims below are proved for every such
function. -/
def createCleanChapterContent (sanitizeBody : Str → Option Str)
    (title content : Str) : Option Str :=
  (sanitizeBody content).map (chapterXhtml title)

/-- `createBasicChapterContent` (restructurer.go:1018), with the
regex-based body extraction and cleanup abstracted as `basicBody`. -/
def createBasicChapterContent (basicBody : Str → Str) (title content : Str) : Str :=
  chapterXhtml title (basicBody content)

/-- The per-chapter `processedContent` variable of `processChapters`
(restructurer.go:478-485): use the DOM-based builder, falling back to
the regex-based one when DOM parsing fails. -/
def processedChapterDoc (sanitizeBody : Str → Option Str) (basicBody : Str → Str)
    (title content : Str) : Str :=
  match createCleanChapterContent sanitizeBody title content with
  | some s => s
  | none => createBasicChapterContent basicBody title content

/-- The chapter-writing loop of `processChapters` (restructurer.go
470-505), returning the filenames written under `chapters/`: the index
`i` advances for every chapter of the list; an empty title is replaced by
"Chapter i+1"; a failed DOM sanitisation falls back to the basic
builder; a chapter whose processed content trims to fewer than 100
characters is skipped (`continue`) without writing its file. -/
def processChapterLoop (sanitizeBody : Str → Option Str) (basicBody : Str → Str) :
    Nat → List Chapter → List Str
  | _, [] => []
  | i, ch :: rest =>
    let chapterTitle := if ch.Title = [] then str "Chapter " ++ natToStr (i + 1) else ch.Title
    let processed := processedChapterDoc sanitizeBody basicBody chapterTitle ch.Content
    if (trimSpace processed).length < 100 then
      processChapterLoop sanitizeBody basicBody (i + 1) rest
    else chapterFileName (i + 1) :: processChapterLoop sanitizeBody basicBody (i + 1) rest

/-- `processChapters` (restructurer.go:452): consolidate when
`EnhancedMode` is set, write the chapter files, and assign
`book.Chapters = chaptersToProcess`; returns the written filenames and
the final chapter list. -/
def processChaptersModel (enhanced : Bool) (sanitizeBody : Str → Option Str)
    (basicBody : Str → Str) (bookChapters : List Chapter) : List Str × List Chapter :=
  let chaptersToProcess := if enhanced then consolidateChapters bookChapters else bookChapters
  (processChapterLoop sanitizeBody basicBody 0 chaptersToProcess, chaptersToProcess)

/-- The chapter entries of the generated package descriptor
(`createContentOPF`, restructurer.go:686-689), projected to their `href`
attribute: one `chapters/chapter_%03d.xhtml` entry per chapter of the
final book, 1-based over the chapter index. -/
def opfChapterHrefs (chapters : List Chapter) : List Str :=
  (List.range chapters.length).map fun i => str "chapters/" ++ chapterFileName (i + 1)

/-! ## General lemmas -/

theorem length_dropWhile_le_len (p : Char → Bool) (l : Str) :
    (l.dropWhile p).length ≤ l.length := by
  induction l with
  | nil => simp
  | cons c cs ih =>
    by_cases h : p c
    · rw [List.dropWhile_cons, if_pos h]
      exact le_trans ih (by simp)
    · simp [List.dropWhile_cons, h]

theorem trimSpace_length_le (l : Str) : (trimSpace l).length ≤ l.length := by
  unfold trimSpace
  calc ((l.dropWhile isGoSpace).reverse.dropWhile isGoSpace).reverse.length
      = ((l.dropWhile isGoSpace).reverse.dropWhile isGoSpace).length := by simp
    _ ≤ (l.dropWhile isGoSpace).reverse.length := length_dropWhile_le_len _ _
    _ = (l.dropWhile isGoSpace).length := by simp
    _ ≤ l.length := length_dropWhile_le_len _ _

/-! ## C10: empty spine makes processContent panic -/

/-- C10: `processContent` dereferences `book.Spine[0]` before any other
step; the derived base path (hence the whole operation) is undefined —
an index-out-of-range panic, not a returned error — exactly when the
Book's spine is empty. -/
theorem spine_empty_means_panic (book : Book) :
    processContentBase book = none ↔ book.Spine = [] := by
  cases h : book.Spine with
  | nil => simp [processContentBase, h]
  | cons s0 rest => simp [processContentBase, h]

/-- Witness: a Book with an empty spine hits the panic path, one with a
spine entry does not. -/
theorem spine_empty_means_panic_witness :
    processContentBase { Spine := ([] : List SpineItem) } = none ∧
    processContentBase { Spine := [{ IDRef := str "c1" }] } ≠ none := by
  constructor
  · exact (spine_empty_means_panic _).mpr rfl
  · intro h
    have h2 := (spine_empty_means_panic { Spine := [{ IDRef := str "c1" }] }).mp h
    simp at h2

/-! ## C2: the 100 MB extraction cap silently truncates -/

/-- C2 (code bug exhibit): an archive entry one byte over the 100 MB cap
is extracted *successfully* with exactly the first 100 MB of its data —
`io.CopyN` returns `nil` (not an error) after copying its full quota, so
the `err != nil && err != io.EOF` check never fires and a silently
truncated file is written, contrary to the documented size-limit
failure. -/
theorem extract_oversized_entry_truncates :
    extractEntry (List.replicate (maxExtractSize + 1) ()) =
      ExtractResult.extracted (List.replicate maxExtractSize ()) ∧
    maxExtractSize < maxExtractSize + 1 := by
  constructor
  · have hlen : ¬ ((List.replicate (maxExtractSize + 1) ()).length < maxExtractSize) := by
      simp
    have htake : (List.replicate (maxExtractSize + 1) ()).take maxExtractSize =
        List.replicate maxExtractSize () := by
      rw [List.take_replicate]
      have hmin : min maxExtractSize (maxExtractSize + 1) = maxExtractSize := by omega
      rw [hmin]
    simp [extractEntry, copyN, hlen, htake]
  · omega

/-! ## C9: subtitle truncation threshold -/

/-- C9 (counterexample): a 58-character description is longer than 57
characters, yet it is used whole — the source truncates only above 60
characters (`len > 60`), so the claimed "longer than 57" rule is false. -/
theorem subtitle_threshold_cex :
    deriveSubtitle (List.replicate 58 'a') = List.replicate 58 'a' ∧
    List.replicate 58 'a' ≠ (List.replicate 58 'a').take 57 ++ str "..." := by
  constructor
  · decide
  · decide

/-- C9 (amended): the description is truncated to its first 57 characters
plus an ellipsis only when it is longer than **60** characters; a
non-empty description of at most 60 characters is used whole; with no
description the fixed default is used. -/
theorem subtitle_derivation_amended (d : Str) :
    (60 < d.length → deriveSubtitle d = d.take 57 ++ str "...") ∧
    (d ≠ [] → d.length ≤ 60 → deriveSubtitle d = d) ∧
    deriveSubtitle [] = str "A Folian Book" := by
  refine ⟨?_, ?_, by simp [deriveSubtitle]⟩
  · intro h
    have hne : d ≠ [] := by
      intro e
      subst e
      simp at h
    simp [deriveSubtitle, hne, h]
  · intro hne hle
    have hgt : ¬ (60 < d.length) := by omega
    simp [deriveSubtitle, hne, hgt]

/-- Witness for the amended subtitle rule at concrete inputs on all three
branches. -/
theorem subtitle_derivation_amended_witness :
    deriveSubtitle (List.replicate 61 'b') = (List.replicate 61 'b').take 57 ++ str "..." ∧
    deriveSubtitle (str "abc") = str "abc" ∧
    deriveSubtitle [] = str "A Folian Book" := by
  refine ⟨(subtitle_derivation_amended _).1 (by decide),
    (subtitle_derivation_amended (str "abc")).2.1 (by decide) (by decide),
    (subtitle_derivation_amended []).2.2⟩

/-! ## C3: title cleanup is not idempotent -/

/-- C3 (counterexample): `cleanChapterTitle` strips at most one leading
marker per run, so a cleaned title may again begin with a strippable
marker; cleaning "part part hello" yields "part hello", and cleaning that
again yields "hello" — cleanup is not idempotent. -/
theorem clean_title_not_idempotent_cex :
    cleanChapterTitle (str "part part hello") 1 = str "part hello" ∧
    cleanChapterTitle (cleanChapterTitle (str "part part hello") 1) 1 = str "hello" ∧
    cleanChapterTitle (cleanChapterTitle (str "part part hello") 1) 1 ≠
      cleanChapterTitle (str "part part hello") 1 := by
  refine ⟨by decide, by decide, by decide⟩

/-- Every output of the final rewrite stage of `cleanChapterTitle` built
from the "Chương " literal is non-numeric, non-empty and not
"untitled". -/
theorem chuong_shape (x : Str) :
    isAllDigits (str "Chương " ++ x) = false ∧
    str "Chương " ++ x ≠ [] ∧
    toLowerStr (str "Chương " ++ x) ≠ str "untitled" := by
  refine ⟨rfl, by simp [str], ?_⟩
  intro h
  have h0 := congrArg (fun l => l[0]?) h
  simp [toLowerStr, str] at h0

/-- The output of `cleanChapterTitle` is never purely numeric, never
empty, and never (case-insensitively) "untitled": the final rewrite
stage eliminates all three shapes. -/
theorem cleanChapterTitle_shape (t : Str) (n : Nat) :
    isAllDigits (cleanChapterTitle t n) = false ∧
    cleanChapterTitle t n ≠ [] ∧
    toLowerStr (cleanChapterTitle t n) ≠ str "untitled" := by
  simp only [cleanChapterTitle]
  set s2 := stripLoop stripMarkers (toLowerStr (htmlUnescape (trimSpace t)))
    (htmlUnescape (trimSpace t)) with hs2
  by_cases h1 : isAllDigits s2 = true
  · rw [if_pos h1]
    exact chuong_shape s2
  · rw [if_neg h1]
    by_cases h2 : (decide (s2 = []) || decide (toLowerStr s2 = str "untitled")) = true
    · rw [if_pos h2]
      exact chuong_shape _
    · rw [if_neg h2]
      simp only [Bool.or_eq_true, decide_eq_true_eq, not_or] at h2
      exact ⟨by simpa using h1, h2.1, h2.2⟩

/-- If no strip marker matches the (stale) lowercased title, the strip
loop leaves the title unchanged. -/
theorem stripLoop_id (ps : List Str) (tl s : Str)
    (h : ∀ p ∈ ps, startsWith tl p = false) : stripLoop ps tl s = s := by
  induction ps with
  | nil => rfl
  | cons p ps ih =>
    have hp := h p (List.mem_cons_self p ps)
    simp only [stripLoop, hp, Bool.false_eq_true, if_false]
    exact ih fun q hq => h q (List.mem_cons_of_mem p hq)

/-- C3 (amended): title cleanup is idempotent only on titles whose
cleaned form is stable under trimming and entity decoding and does not
begin (case-insensitively) with one of the strip markers "part", "phần",
"section"; in general a second application can strip a further marker or
decode entities a second time. -/
theorem clean_title_idempotent_on_stable (t : Str) (n m : Nat)
    (htrim : trimSpace (cleanChapterTitle t n) = cleanChapterTitle t n)
    (hunesc : htmlUnescape (cleanChapterTitle t n) = cleanChapterTitle t n)
    (hmark : ∀ p ∈ stripMarkers, startsWith (toLowerStr (cleanChapterTitle t n)) p = false) :
    cleanChapterTitle (cleanChapterTitle t n) m = cleanChapterTitle t n := by
  obtain ⟨hd, hne, hun⟩ := cleanChapterTitle_shape t n
  generalize hgen : cleanChapterTitle t n = s at htrim hunesc hmark hd hne hun ⊢
  simp only [cleanChapterTitle]
  rw [htrim, hunesc, stripLoop_id _ _ _ hmark]
  simp [hd, hne, hun]

/-- Witness: the amended idempotence theorem applied at a stable cleaned
title. -/
theorem clean_title_idempotent_on_stable_witness :
    cleanChapterTitle (cleanChapterTitle (str "Hello World") 1) 2 =
      cleanChapterTitle (str "Hello World") 1 :=
  clean_title_idempotent_on_stable (str "Hello World") 1 2 (by decide) (by decide) (by decide)

/-! ## C6: dropping every document yields an empty, valid result -/

/-- Folding the consolidation step over documents that are all
classified as navigation noise leaves the loop state untouched. -/
theorem foldl_nav_id (cs : List Chapter) :
    ∀ st : ConsState, (∀ c ∈ cs, isNavigationChapter c = true) →
      cs.foldl consolidateStep st = st := by
  induction cs with
  | nil => intro st _; rfl
  | cons c rest ih =>
    intro st h
    have hc : isNavigationChapter c = true := h c (List.mem_cons_self c rest)
    have hstep : consolidateStep st c = st := by simp [consolidateStep, hc]
    rw [List.foldl_cons, hstep]
    exact ih st fun d hd => h d (List.mem_cons_of_mem c hd)

/-- C6: in consolidation mode (more than 20 input documents), if every
document is classified as navigation noise the resulting chapter
sequence is empty — `consolidateChapters` returns the empty list as an
ordinary value, there is no error path. -/
theorem all_navigation_yields_empty (cs : List Chapter)
    (hlen : 20 < cs.length)
    (hnav : ∀ c ∈ cs, isNavigationChapter c = true) :
    consolidateChapters cs = [] := by
  have h20 : ¬ (cs.length ≤ 20) := by omega
  simp only [consolidateChapters, h20, if_false]
  rw [foldl_nav_id cs {} hnav]

/-- A chapter every classifier run treats as navigation noise (its title
contains the marker "toc"). -/
def navChapterEx : Chapter := { Title := str "toc", Content := str "x" }

/-- Witness: 21 navigation documents consolidate to the empty chapter
list. -/
theorem all_navigation_yields_empty_witness :
    consolidateChapters (List.replicate 21 navChapterEx) = [] :=
  all_navigation_yields_empty _ (by decide) (by
    intro c hc
    have hcn := List.eq_of_mem_replicate hc
    subst hcn
    decide)

/-! ## C4: direct mode preserves the chapter list -/

/-- Element-wise description of the title-cleanup loop: lengths are
preserved and entry `i` keeps its chapter with only the title cleaned
using 1-based position `k + i + 1`. -/
theorem cleanupFrom_spec (cs : List Chapter) :
    ∀ k : Nat, (cleanupFrom k cs).length = cs.length ∧
      ∀ i : Nat, (cleanupFrom k cs)[i]? =
        (cs[i]?).map fun c => { c with Title := cleanChapterTitle c.Title (k + i + 1) } := by
  induction cs with
  | nil => intro k; simp [cleanupFrom]
  | cons c rest ih =>
    intro k
    refine ⟨by simp [cleanupFrom, (ih (k + 1)).1], ?_⟩
    intro i
    cases i with
    | zero => simp [cleanupFrom]
    | succ j =>
      have hj := (ih (k + 1)).2 j
      simp only [cleanupFrom, List.getElem?_cons_succ]
      rw [hj]
      have harith : k + 1 + j + 1 = k + (j + 1) + 1 := by omega
      rw [harith]

/-- C4: with at most 20 input chapters, consolidation is the direct mode —
it returns exactly as many chapters, in the same order, each identical to
its input chapter except that `cleanChapterTitle` is applied to the title
with the 1-based position (no merging, no dropping, content unchanged). -/
theorem direct_mode_preserves_chapters (cs : List Chapter) (h : cs.length ≤ 20) :
    (consolidateChapters cs).length = cs.length ∧
    ∀ (i : Nat) (c : Chapter), cs[i]? = some c →
      (consolidateChapters cs)[i]? =
        some { c with Title := cleanChapterTitle c.Title (i + 1) } := by
  have hdef : consolidateChapters cs = cleanupFrom 0 cs := by
    simp [consolidateChapters, h, cleanupChapterTitles]
  rw [hdef]
  refine ⟨(cleanupFrom_spec cs 0).1, ?_⟩
  intro i c hc
  have hi := (cleanupFrom_spec cs 0).2 i
  rw [hi, hc]
  simp

/-- Two concrete chapters for the direct-mode witness. -/
def twoChaps : List Chapter :=
  [{ Title := str "One", Content := str "c1" }, { Title := str "Two", Content := str "c2" }]

/-- Witness: direct mode applied to a 2-chapter input preserves both
entries, cleaning only the title. -/
theorem direct_mode_preserves_chapters_witness :
    (consolidateChapters twoChaps).length = twoChaps.length ∧
    (consolidateChapters twoChaps)[1]? =
      some { ({ Title := str "Two", Content := str "c2" } : Chapter) with
        Title := cleanChapterTitle (str "Two") 2 } := by
  have h := direct_mode_preserves_chapters twoChaps (by decide)
  exact ⟨h.1, h.2 1 { Title := str "Two", Content := str "c2" } (by decide)⟩

/-! ## C5: navigation-noise classification -/

/-- A document with hyperlink density 15 per 1000 characters (3 links in
200 characters) but no navigation markers. -/
def denseDoc : Chapter :=
  { Title := str "x", Content := str "<a <a <a " ++ List.replicate 191 'z' }

set_option maxRecDepth 8000 in
/-- C5 (counterexample): a document whose link density (15 per 1000)
exceeds the 10-per-1000 threshold but which has only 3 links is *not*
classified as navigation noise — the source additionally requires more
than 5 links — and in consolidation mode it survives into the output
instead of being dropped. -/
theorem nav_density_without_min_links_not_dropped :
    isNavigationChapter denseDoc = false ∧
    countSub (toLowerStr denseDoc.Content) (str "<a ") = 3 ∧
    (trimSpace (toLowerStr denseDoc.Content)).length = 200 ∧
    (200 : Nat) < 100 * 3 ∧
    consolidateChapters (denseDoc :: List.replicate 20 navChapterEx) = [denseDoc] := by
  refine ⟨by decide, by decide, by decide, by decide, by decide⟩

/-- C5 (amended): a document is classified as navigation noise exactly
when its lowercased title or content contains one of the known markers,
OR when its content is non-empty, has **more than 5 hyperlinks**, and
its hyperlink density exceeds 10 links per 1000 characters; noise
documents are dropped entirely by the consolidation step (state
unchanged, never merged).  Density alone does not drop a document with
at most 5 links. -/
theorem nav_classification_characterization :
    (∀ ch : Chapter,
      isNavigationChapter ch = true ↔
        ((∃ ind ∈ navIndicators,
            containsSub (toLowerStr ch.Title) ind = true ∨
            containsSub (toLowerStr ch.Content) ind = true) ∨
          (0 < (trimSpace (toLowerStr ch.Content)).length ∧
           5 < countSub (toLowerStr ch.Content) (str "<a ") ∧
           (trimSpace (toLowerStr ch.Content)).length <
             100 * countSub (toLowerStr ch.Content) (str "<a ")))) ∧
    (∀ (st : ConsState) (ch : Chapter),
      isNavigationChapter ch = true → consolidateStep st ch = st) := by
  constructor
  · intro ch
    simp only [isNavigationChapter]
    by_cases hA : navIndicators.any
        (fun ind => containsSub (toLowerStr ch.Title) ind ||
          containsSub (toLowerStr ch.Content) ind) = true
    · rw [if_pos hA]
      have hA2 : ∃ ind ∈ navIndicators,
          containsSub (toLowerStr ch.Title) ind = true ∨
          containsSub (toLowerStr ch.Content) ind = true := by
        simpa [List.any_eq_true, Bool.or_eq_true] using hA
      exact iff_of_true rfl (Or.inl hA2)
    · rw [if_neg hA]
      have hA2 : ¬ ∃ ind ∈ navIndicators,
          containsSub (toLowerStr ch.Title) ind = true ∨
          containsSub (toLowerStr ch.Content) ind = true := by
        simpa [List.any_eq_true, Bool.or_eq_true] using hA
      constructor
      · intro hB
        refine Or.inr ?_
        simpa [Bool.and_eq_true, decide_eq_true_eq, and_assoc] using hB
      · intro h
        rcases h with h | h
        · exact absurd h hA2
        · simpa [Bool.and_eq_true, decide_eq_true_eq, and_assoc] using h
  · intro st ch h
    simp [consolidateStep, h]

/-- Content of the spec's worked example: 20 hyperlinks in 400 characters
(density 50 per 1000). -/
def tocContent : Str := (List.replicate 20 (str "<a x>")).flatten ++ List.replicate 300 'z'

/-- The spec's worked example: a document titled "Table of Contents" with
20 hyperlinks in 400 characters. -/
def tocExample : Chapter := { Title := str "Table of Contents", Content := tocContent }

/-- Witness: the classification theorem applied to the spec's example —
it is classified as noise and the consolidation step drops it. -/
theorem nav_classification_characterization_witness :
    isNavigationChapter tocExample = true ∧
    consolidateStep {} tocExample = {} := by
  have h1 : isNavigationChapter tocExample = true :=
    (nav_classification_characterization.1 tocExample).mpr
      (Or.inl ⟨str "table of contents", by decide, Or.inl (by decide)⟩)
  exact ⟨h1, nav_classification_characterization.2 {} tocExample h1⟩

/-! ## C7: merge guard and accumulated-length bound -/

/-- Forget the ghost fields of the instrumented consolidation state. -/
def traceProj (st : ConsTrace) : ConsState :=
  { consolidated := st.consolidated, current := st.current }

/-- One instrumented step projects onto one source step: the ghost
fields never influence the consolidation itself. -/
theorem traceStep_proj (st : ConsTrace) (ch : Chapter) :
    traceProj (consolidateTraceStep st ch) = consolidateStep (traceProj st) ch := by
  by_cases hnav : isNavigationChapter ch
  · simp [consolidateTraceStep, consolidateStep, traceProj, hnav]
  · cases hcur : st.current with
    | none => simp [consolidateTraceStep, consolidateStep, traceProj, hnav, hcur]
    | some cur =>
      by_cases h1 : (trimSpace ch.Content).length < minChapterLength
      · by_cases h2 : cur.Content.length + (trimSpace ch.Content).length < maxChapterLength
        · simp [consolidateTraceStep, consolidateStep, traceProj, hnav, hcur, h1, h2]
        · simp [consolidateTraceStep, consolidateStep, traceProj, hnav, hcur, h1, h2]
      · simp [consolidateTraceStep, consolidateStep, traceProj, hnav, hcur, h1]

/-- The instrumented fold projects onto the source fold. -/
theorem traceFold_proj (cs : List Chapter) :
    ∀ st : ConsTrace, traceProj (cs.foldl consolidateTraceStep st) =
      cs.foldl consolidateStep (traceProj st) := by
  induction cs with
  | nil => intro st; rfl
  | cons c rest ih =>
    intro st
    rw [List.foldl_cons, List.foldl_cons, ih, traceStep_proj]

/-- Invariant of the instrumented state: every recorded merge sum is
below the maximum, and the ghost sum of trimmed lengths never exceeds
the open accumulator's raw content length. -/
def traceOk (st : ConsTrace) : Prop :=
  (∀ v ∈ st.merges, v < maxChapterLength) ∧
  ∀ c : Chapter, st.current = some c → st.curTrims.sum ≤ c.Content.length

/-- The instrumented step preserves the invariant: the merge guard
`len(current.Content) + contentLength < maxChapterLength` bounds the new
recorded sum, and every branch re-establishes the ghost bound. -/
theorem traceStep_ok (st : ConsTrace) (ch : Chapter) (h : traceOk st) :
    traceOk (consolidateTraceStep st ch) := by
  obtain ⟨hm, hc⟩ := h
  by_cases hnav : isNavigationChapter ch
  · simp only [consolidateTraceStep, hnav, if_true]
    exact ⟨hm, hc⟩
  · cases hcur : st.current with
    | none =>
      simp only [consolidateTraceStep, hnav, Bool.false_eq_true, if_false, hcur]
      refine ⟨hm, ?_⟩
      intro c hc2
      simp only [Option.some.injEq] at hc2
      subst hc2
      simpa using trimSpace_length_le ch.Content
    | some cur =>
      have hcur2 := hc cur hcur
      by_cases h1 : (trimSpace ch.Content).length < minChapterLength
      · by_cases h2 : cur.Content.length + (trimSpace ch.Content).length < maxChapterLength
        · simp only [consolidateTraceStep, hnav, Bool.false_eq_true, if_false, hcur, h1,
            if_true, h2]
          constructor
          · intro v hv
            rcases List.mem_append.mp hv with hv | hv
            · exact hm v hv
            · have hv2 : v = st.curTrims.sum + (trimSpace ch.Content).length := by
                simpa using hv
              omega
          · intro c hc2
            simp only [Option.some.injEq] at hc2
            subst hc2
            have hlen : (cur.Content ++ str "\n\n" ++ ch.Content).length =
                cur.Content.length + 2 + ch.Content.length := by
              simp [str]
              omega
            have htr := trimSpace_length_le ch.Content
            simp only [hlen, List.sum_append, List.sum_cons, List.sum_nil]
            omega
        · simp only [consolidateTraceStep, hnav, Bool.false_eq_true, if_false, hcur, h1,
            if_true, h2]
          refine ⟨hm, ?_⟩
          intro c hc2
          simp only [Option.some.injEq] at hc2
          subst hc2
          simpa using trimSpace_length_le ch.Content
      · simp only [consolidateTraceStep, hnav, Bool.false_eq_true, if_false, hcur, h1]
        refine ⟨hm, ?_⟩
        intro c hc2
        simp only [Option.some.injEq] at hc2
        subst hc2
        simpa using trimSpace_length_le ch.Content

/-- The invariant holds after folding from any invariant state. -/
theorem traceFold_ok (cs : List Chapter) :
    ∀ st : ConsTrace, traceOk st → traceOk (cs.foldl consolidateTraceStep st) := by
  induction cs with
  | nil => intro st h; exact h
  | cons c rest ih =>
    intro st h
    rw [List.foldl_cons]
    exact ih _ (traceStep_ok st c h)

/-- C7: (1) a document's content is appended to the open accumulator
exactly when it survives navigation filtering, its trimmed length is
below `minChapterLength`, an accumulator is open, and the accumulator's
content length plus the incoming trimmed length stays below
`maxChapterLength`; (2) at every merge decision actually taken, the
summed trimmed length of the accumulator's documents plus the incoming
document's trimmed length is below `maxChapterLength`; (3) the
instrumented fold recording those sums projects onto the source fold. -/
theorem merge_guard_characterization_and_bound :
    (∀ (st : ConsState) (ch : Chapter),
      (st.current.isSome = true ∧
       (consolidateStep st ch).consolidated = st.consolidated ∧
       (consolidateStep st ch).current.map Chapter.Content =
         st.current.map fun c => c.Content ++ str "\n\n" ++ ch.Content)
      ↔ (isNavigationChapter ch = false ∧
         (trimSpace ch.Content).length < minChapterLength ∧
         ∃ c : Chapter, st.current = some c ∧
           c.Content.length + (trimSpace ch.Content).length < maxChapterLength)) ∧
    (∀ (cs : List Chapter) (v : Nat), v ∈ consolidateMerges cs → v < maxChapterLength) ∧
    (∀ cs : List Chapter,
      traceProj (cs.foldl consolidateTraceStep {}) = cs.foldl consolidateStep {}) := by
  refine ⟨?_, ?_, ?_⟩
  · intro st ch
    constructor
    · rintro ⟨hsome, hcons, hcont⟩
      obtain ⟨c, hc⟩ := Option.isSome_iff_exists.mp hsome
      by_cases hnav : isNavigationChapter ch
      · exfalso
        have hst : consolidateStep st ch = st := by simp [consolidateStep, hnav]
        rw [hst, hc] at hcont
        simp only [Option.map_some'] at hcont
        have hlen := congrArg List.length (Option.some.inj hcont)
        simp [str] at hlen
      · by_cases h1 : (trimSpace ch.Content).length < minChapterLength
        · by_cases h2 : c.Content.length + (trimSpace ch.Content).length < maxChapterLength
          · exact ⟨by simpa using hnav, h1, c, hc, h2⟩
          · exfalso
            have hseal : (consolidateStep st ch).consolidated = st.consolidated ++ [c] := by
              simp [consolidateStep, hnav, hc, h1, h2]
            rw [hseal] at hcons
            have hlen := congrArg List.length hcons
            simp at hlen
        · exfalso
          have hseal : (consolidateStep st ch).consolidated = st.consolidated ++ [c] := by
            simp [consolidateStep, hnav, hc, h1]
          rw [hseal] at hcons
          have hlen := congrArg List.length hcons
          simp at hlen
    · rintro ⟨hnav, h1, c, hc, h2⟩
      refine ⟨by simp [hc], ?_, ?_⟩
      · simp [consolidateStep, hnav, hc, h1, h2]
      · simp [consolidateStep, hnav, hc, h1, h2]
  · intro cs v hv
    have hinit : traceOk ({} : ConsTrace) := by
      constructor
      · intro w hw
        exact absurd hw (List.not_mem_nil w)
      · intro c hc
        exact Option.noConfusion hc
    exact (traceFold_ok cs {} hinit).1 v hv
  · intro cs
    exact traceFold_proj cs {}

/-- A short non-navigation document ("hello", 5 characters). -/
def shortDocA : Chapter := { Title := str "Alpha", Content := str "hello" }

/-- A second short non-navigation document ("world", 5 characters). -/
def shortDocB : Chapter := { Title := str "Beta", Content := str "world" }

/-- Witness: consolidating the two short documents records exactly one
merge decision with sum 10, which the theorem bounds below the maximum;
the characterization's backward direction exhibits the concrete merged
content. -/
theorem merge_guard_characterization_and_bound_witness :
    (10 : Nat) < maxChapterLength ∧
    (consolidateStep { consolidated := [], current := some shortDocA } shortDocB).current.map
        Chapter.Content =
      some (str "hello" ++ str "\n\n" ++ str "world") := by
  constructor
  · exact merge_guard_characterization_and_bound.2.1 [shortDocA, shortDocB] 10 (by decide)
  · have h := (merge_guard_characterization_and_bound.1
        { consolidated := [], current := some shortDocA } shortDocB).mpr
      ⟨by decide, by decide, shortDocA, rfl, by decide⟩
    simpa [shortDocA, shortDocB] using h.2.2

/-! ## C8: cover-image resolution order -/

/-- A manifest item flagged as cover image, href `a.jpg`. -/
def coverItemA : ManifestItem :=
  { ID := str "ida", Href := str "a.jpg", MediaType := str "image/jpeg",
    Properties := str "cover-image" }

/-- A second flagged manifest item, href `b.jpg`. -/
def coverItemB : ManifestItem :=
  { ID := str "idb", Href := str "b.jpg", MediaType := str "image/jpeg",
    Properties := str "cover-image" }

/-- C8 (counterexample): with two flagged items in document order
`[A, B]`, the parse-time scan resolves to `b.jpg` — the *last* match
wins, not the first; and `findCoverImage` on the same two-item manifest
returns different covers for the two possible map iteration orders, so
the resolved cover is not a deterministic function of the manifest
contents and guide alone. -/
theorem cover_first_match_fails_cex :
    parseOPFCoverScan [coverItemA, coverItemB] = str "b.jpg" ∧
    coverItemA.Href = str "a.jpg" ∧
    ¬ (str "b.jpg" = str "a.jpg") ∧
    findCoverImage [coverItemA, coverItemB] [] = some (str "a.jpg") ∧
    findCoverImage [coverItemB, coverItemA] [] = some (str "b.jpg") := by
  refine ⟨by decide, by decide, by decide, by decide, by decide⟩

/-- The parse-time scan keeps the href of the last flagged item of the
document-ordered manifest (or the starting accumulator when none is
flagged). -/
theorem foldl_cover_scan (items : List ManifestItem) :
    ∀ acc : Str,
      items.foldl
          (fun cover it => if it.Properties = str "cover-image" then it.Href else cover) acc =
        match (items.filter fun it => it.Properties = str "cover-image").getLast? with
        | some it => it.Href
        | none => acc := by
  induction items with
  | nil => intro acc; rfl
  | cons it rest ih =>
    intro acc
    rw [List.foldl_cons]
    by_cases hp : it.Properties = str "cover-image"
    · rw [if_pos hp, ih it.Href, List.filter_cons_of_pos (by simpa using hp)]
      cases hl : rest.filter fun x => x.Properties = str "cover-image" with
      | nil => simp
      | cons y ys =>
        simp only [List.getLast?_cons_cons]
        cases hz : (y :: ys).getLast? with
        | none =>
          rw [List.getLast?_eq_none_iff] at hz
          exact absurd hz (by simp)
        | some z => rfl
    · rw [if_neg hp, ih acc, List.filter_cons_of_neg (by simpa using hp)]

/-- C8 (amended): cover resolution follows the fixed tier priority —
flagged manifest item, then guide entry of type "cover", then the
identifier/media-type heuristic — with no backtracking across tiers; but
in the parse-time scan over the document-ordered manifest the **last**
exactly-flagged item wins, and within each `findCoverImage` tier the
first item *in the map's iteration order* wins, so the result is
deterministic only relative to a fixed iteration order. -/
theorem cover_resolution_amended :
    (∀ items : List ManifestItem,
      parseOPFCoverScan items =
        match (items.filter fun it => it.Properties = str "cover-image").getLast? with
        | some it => it.Href
        | none => []) ∧
    (∀ (m : List ManifestItem) (g : List GuideItem) (it : ManifestItem),
      m.find? (fun x => containsSub x.Properties (str "cover-image")) = some it →
      findCoverImage m g = some it.Href) ∧
    (∀ (m : List ManifestItem) (g : List GuideItem) (h : Str),
      m.find? (fun x => containsSub x.Properties (str "cover-image")) = none →
      guideCoverScan g m = some h →
      findCoverImage m g = some h) ∧
    (∀ (m : List ManifestItem) (g : List GuideItem),
      m.find? (fun x => containsSub x.Properties (str "cover-image")) = none →
      guideCoverScan g m = none →
      findCoverImage m g =
        (m.find? fun x =>
          (x.ID = str "cover" || containsSub x.ID (str "cover")) &&
          containsSub x.MediaType (str "image")).map fun x => x.Href) := by
  refine ⟨fun items => foldl_cover_scan items [], ?_, ?_, ?_⟩
  · intro m g it hfind
    simp [findCoverImage, hfind]
  · intro m g h hfind hguide
    simp [findCoverImage, hfind, hguide]
  · intro m g hfind hguide
    simp [findCoverImage, hfind, hguide]

/-- An unflagged manifest item whose ID contains "cover". -/
def plainCoverItem : ManifestItem :=
  { ID := str "coverpic", Href := str "cover.png", MediaType := str "image/png" }

/-- A guide entry of type "cover" pointing at the item above. -/
def coverGuideEx : GuideItem := { Gtype := str "cover", GHref := str "OEBPS/cover.png" }

/-- Witness: the amended resolution theorem at concrete inputs covering
all three tiers and the last-wins parse scan. -/
theorem cover_resolution_amended_witness :
    parseOPFCoverScan [coverItemA, coverItemB] = str "b.jpg" ∧
    findCoverImage [coverItemA] [] = some (str "a.jpg") ∧
    findCoverImage [plainCoverItem] [coverGuideEx] = some (str "cover.png") ∧
    findCoverImage [plainCoverItem] [] = some (str "cover.png") := by
  refine ⟨?_, ?_, ?_, ?_⟩
  · exact (cover_resolution_amended.1 [coverItemA, coverItemB]).trans (by decide)
  · have h := cover_resolution_amended.2.1 [coverItemA] [] coverItemA (by decide)
    simpa [coverItemA] using h
  · exact cover_resolution_amended.2.2.1 [plainCoverItem] [coverGuideEx] (str "cover.png")
      (by decide) (by decide)
  · exact (cover_resolution_amended.2.2.2 [plainCoverItem] [] (by decide) (by decide)).trans
      (by decide)

/-! ## C1: manifest chapter entries match written chapter files -/

/-- Dropping a whitespace run does not change the non-whitespace
characters of a string. -/
theorem filter_dropWhile_nonspace (l : Str) :
    ((l.dropWhile isGoSpace).filter fun c => !(isGoSpace c)) =
      l.filter fun c => !(isGoSpace c) := by
  conv_rhs => rw [← List.takeWhile_append_dropWhile (p := isGoSpace) (l := l)]
  rw [List.filter_append]
  have h : (l.takeWhile isGoSpace).filter (fun c => !(isGoSpace c)) = [] := by
    rw [List.filter_eq_nil_iff]
    intro a ha
    have hsp := List.mem_takeWhile_imp ha
    simp [hsp]
  rw [h, List.nil_append]

/-- Trimming preserves the non-whitespace characters. -/
theorem trim_nonspace (l : Str) :
    (trimSpace l).filter (fun c => !(isGoSpace c)) = l.filter fun c => !(isGoSpace c) := by
  unfold trimSpace
  rw [List.filter_reverse, filter_dropWhile_nonspace, List.filter_reverse,
    filter_dropWhile_nonspace, List.reverse_reverse]

/-- The trimmed length is at least the number of non-whitespace
characters. -/
theorem trim_length_ge_nonspace (l : Str) :
    (l.filter (fun c => !(isGoSpace c))).length ≤ (trimSpace l).length := by
  rw [← trim_nonspace]
  exact List.length_filter_le _ _

set_option maxRecDepth 2000 in
/-- Every instantiated chapter document trims to at least 100 characters:
the fixed template text alone contributes 185 non-whitespace characters,
so the 100-character skip guard of `processChapters` can never fire. -/
theorem chapterXhtml_trim_ge (t b : Str) :
    100 ≤ (trimSpace (chapterXhtml t b)).length := by
  refine le_trans ?_ (trim_length_ge_nonspace _)
  have h1 : ((xhtmlChunk1).filter fun c => !(isGoSpace c)).length = 91 := by decide
  have h2 : ((xhtmlChunk2).filter fun c => !(isGoSpace c)).length = 94 := by decide
  unfold chapterXhtml
  simp only [List.filter_append, List.length_append]
  omega

/-- The processed document is always an instance of the shared chapter
template. -/
theorem processedChapterDoc_shape (sb : Str → Option Str) (bb : Str → Str)
    (title content : Str) :
    processedChapterDoc sb bb title content =
      chapterXhtml title (match sb content with | some s => s | none => bb content) := by
  cases h : sb content with
  | some s => simp [processedChapterDoc, createCleanChapterContent, h]
  | none => simp [processedChapterDoc, createCleanChapterContent, createBasicChapterContent, h]

/-- The chapter-writing loop writes exactly one file per chapter, named
`chapter_%03d.xhtml` by 1-based position, for every sanitiser and every
fallback body builder: the skip guard is dead code. -/
theorem processChapterLoop_eq (sb : Str → Option Str) (bb : Str → Str) (cs : List Chapter) :
    ∀ i : Nat, processChapterLoop sb bb i cs =
      (List.range cs.length).map fun j => chapterFileName (i + j + 1) := by
  induction cs with
  | nil => intro i; simp [processChapterLoop]
  | cons ch rest ih =>
    intro i
    have hstep : processChapterLoop sb bb i (ch :: rest) =
        chapterFileName (i + 1) :: processChapterLoop sb bb (i + 1) rest := by
      simp only [processChapterLoop, processedChapterDoc_shape]
      rw [if_neg (by
        have := chapterXhtml_trim_ge
          (if ch.Title = [] then str "Chapter " ++ natToStr (i + 1) else ch.Title)
          (match sb ch.Content with | some s => s | none => bb ch.Content)
        omega)]
    rw [hstep, ih (i + 1)]
    rw [List.length_cons, List.range_succ_eq_map, List.map_cons, List.map_map]
    refine congrArg₂ List.cons rfl ?_
    have hf : (fun j => chapterFileName (i + 1 + j + 1)) =
        ((fun j => chapterFileName (i + j + 1)) ∘ Nat.succ) := by
      funext j
      simp only [Function.comp]
      congr 1
      omega
    rw [hf]

/-- C1: for every Book (both modes, and for every behaviour of the
abstracted DOM sanitiser and regex fallback), the number of chapter
entries in the generated package descriptor equals the number of
Chapters of the final Book; the chapter files actually written are
exactly `chapter_NNN.xhtml` (3-digit zero-padded via `pad3`, 1-based)
for positions 1..N; and each manifest entry's href is `chapters/` plus
the corresponding written filename. -/
theorem chapter_manifest_files_match (enhanced : Bool) (sb : Str → Option Str)
    (bb : Str → Str) (bookChapters : List Chapter) :
    (opfChapterHrefs (processChaptersModel enhanced sb bb bookChapters).2).length =
      (processChaptersModel enhanced sb bb bookChapters).2.length ∧
    (processChaptersModel enhanced sb bb bookChapters).1 =
      (List.range (processChaptersModel enhanced sb bb bookChapters).2.length).map
        (fun i => chapterFileName (i + 1)) ∧
    opfChapterHrefs (processChaptersModel enhanced sb bb bookChapters).2 =
      (processChaptersModel enhanced sb bb bookChapters).1.map
        fun f => str "chapters/" ++ f := by
  have hm : processChaptersModel enhanced sb bb bookChapters =
      (processChapterLoop sb bb 0
        (if enhanced then consolidateChapters bookChapters else bookChapters),
       if enhanced then consolidateChapters bookChapters else bookChapters) := rfl
  rw [hm]
  set cs := if enhanced then consolidateChapters bookChapters else bookChapters with hcs
  refine ⟨by simp [opfChapterHrefs], ?_, ?_⟩
  · rw [processChapterLoop_eq]
    refine List.map_congr_left ?_
    intro j hj
    congr 1
    omega
  · rw [processChapterLoop_eq, opfChapterHrefs, List.map_map]
    refine List.map_congr_left ?_
    intro j hj
    simp only [Function.comp]
    congr 2
    omega
